import Mathlib

/-!
Verification of the drug-info application's query/pagination/sort layer.

The definitions below are a shallow embedding of the backend source:

* `src/backend/utils/fileDatabase.js` — the file-backed store (`find`,
  `distinct`, `deleteMany`, `saveData`);
* `src/backend/routes/drugsFile.js` — `GET /api/drugs` (filter build, sort,
  pagination, sequential display id);
* `src/backend/routes/companiesFile.js` — `GET /api/companies`;
* the mongoose drugs router (`POST /api/drugs`) together with the mongoose
  Drug schema found at the tail of `src/backend/serverFile.js` (required
  paths, unique `code`);
* the App component found at the tail of
  `src/frontend/src/components/__tests__/DrugTable.test.tsx` (`loadDrugs`
  request parameters, `handleCompanyFilter`, and `DrugTable`'s
  `onCompanyClick` wiring).

JavaScript strings are embedded as Lean `String`; JS string comparison
(`<`, `>`, used by `Array.prototype.sort` comparators) is lexicographic on
code units, embedded below as `lexLtN` over the list of character codes.
JS `Array.prototype.sort` is required by ECMA-262 to be stable; it is
embedded as `List.insertionSort`, a stable sort, with the relation
"comparator(a, b) ≤ 0" (a may stay before b).
`Date` values are embedded as `DateStr`: the stored ISO-8601 string
together with the instant (epoch milliseconds) that `new Date(string)`
yields for it; `new Date(x) − new Date(y)` comparisons read the `epoch`
field, lexical string comparison reads the `iso` field.
-/

namespace DrugApp

/-- Lexicographic strict order on lists of character codes: the embedding of
ECMAScript's `<` on strings (code-unit lexicographic, a proper prefix is
smaller). -/
def lexLtN : List Nat → List Nat → Bool
  | [], [] => false
  | [], _ :: _ => true
  | _ :: _, [] => false
  | a :: as, b :: bs =>
    if a < b then true else if b < a then false else lexLtN as bs

/-- The character codes of a string. -/
def codes (s : String) : List Nat := s.data.map Char.toNat

/-- Embedding of ECMAScript `a < b` on strings. -/
def jsStrLt (a b : String) : Bool := lexLtN (codes a) (codes b)

theorem lexLtN_irrefl : ∀ l : List Nat, lexLtN l l = false := by
  intro l
  induction l with
  | nil => rfl
  | cons a as ih => simp [lexLtN, ih]

theorem lexLtN_trans : ∀ {a b c : List Nat},
    lexLtN a b = true → lexLtN b c = true → lexLtN a c = true := by
  intro a
  induction a with
  | nil =>
    intro b c hab hbc
    cases b with
    | nil => simp [lexLtN] at hab
    | cons y ys =>
      cases c with
      | nil => simp [lexLtN] at hbc
      | cons z zs => simp [lexLtN]
  | cons x xs ih =>
    intro b c hab hbc
    cases b with
    | nil => simp [lexLtN] at hab
    | cons y ys =>
      cases c with
      | nil => simp [lexLtN] at hbc
      | cons z zs =>
        simp only [lexLtN] at hab hbc ⊢
        by_cases hxy : x < y
        · by_cases hyz : y < z
          · simp [show x < z by omega]
          · simp only [hyz, if_false] at hbc
            by_cases hzy : z < y
            · simp [hzy] at hbc
            · have hyzeq : y = z := by omega
              simp [show x < z by omega]
        · simp only [hxy, if_false] at hab
          by_cases hyx : y < x
          · simp [hyx] at hab
          · have hxyeq : x = y := by omega
            subst hxyeq
            simp only [lt_irrefl, if_false] at hab
            by_cases hxz : x < z
            · simp [hxz]
            · simp only [hxz, if_false] at hbc ⊢
              by_cases hzx : z < x
              · simp [hzx] at hbc
              · simp only [hzx, if_false] at hbc ⊢
                exact ih hab hbc

theorem lexLtN_conn : ∀ {a b : List Nat},
    lexLtN a b = false → lexLtN b a = false → a = b := by
  intro a
  induction a with
  | nil =>
    intro b hab _
    cases b with
    | nil => rfl
    | cons y ys => simp [lexLtN] at hab
  | cons x xs ih =>
    intro b hab hba
    cases b with
    | nil => simp [lexLtN] at hba
    | cons y ys =>
      simp only [lexLtN] at hab hba
      by_cases hxy : x < y
      · simp [hxy] at hab
      · by_cases hyx : y < x
        · simp [hyx] at hba
        · have hxyeq : x = y := by omega
          subst hxyeq
          simp only [lt_irrefl, if_false] at hab hba
          exact congrArg₂ (· :: ·) rfl (ih hab hba)

/-- `z ≤ y → y ≤ x → z ≤ x` phrased with the strict order: if `x < y` fails
and `y < z` fails then `x < z` fails. -/
theorem lexLtN_le_trans {x y z : List Nat}
    (h1 : lexLtN x y = false) (h2 : lexLtN y z = false) :
    lexLtN x z = false := by
  by_contra h
  have hxz : lexLtN x z = true := by
    cases hxz : lexLtN x z with
    | true => rfl
    | false => exact absurd hxz h
  cases hxy : lexLtN x y with
  | true => exact absurd hxy (by simp [h1])
  | false =>
    cases hyx : lexLtN y x with
    | true =>
      have : lexLtN y z = true := lexLtN_trans hyx hxz
      simp [h2] at this
    | false =>
      have hxyeq : x = y := lexLtN_conn hxy hyx
      subst hxyeq
      simp [h2] at hxz

/-- Whitespace test on a character code, as used by ECMAScript
`String.prototype.trim` for the characters appearing in this code base
(space, tab, newline, carriage return, form feed, vertical tab). -/
def isWsCode (n : Nat) : Bool :=
  n = 32 || n = 9 || n = 10 || n = 13 || n = 12 || n = 11

/-- Embedding of ECMAScript `String.prototype.trim`: strip leading and
trailing whitespace characters. -/
def jsTrim (s : String) : String :=
  ⟨((s.data.dropWhile (fun c => isWsCode c.toNat)).reverse.dropWhile
      (fun c => isWsCode c.toNat)).reverse⟩

/-- An ISO-8601 launch-date string together with the instant it denotes:
`iso` is the stored string, `epoch` is the value (epoch milliseconds) that
`new Date(iso)` produces. Sorting with `new Date(a) - new Date(b)` reads
`epoch`; lexical string comparison reads `iso`. -/
structure DateStr where
  iso : String
  epoch : Int
deriving DecidableEq

/-- A stored drug record, as kept by the store (`fileDatabase.js` data
array / the mongoose collection): `_id`, `code`, `genericName`,
`brandName`, `company`, `launchDate`. -/
structure DrugRecord where
  _id : String
  code : String
  genericName : String
  brandName : String
  company : String
  launchDate : DateStr
deriving DecidableEq

/-- `FileDatabase.find(filter)` from `src/backend/utils/fileDatabase.js`:
copies the data array and, when `filter.company` is truthy (a non-empty
string), keeps the items whose `company` strictly equals it. -/
def find (data : List DrugRecord) (companyFilter : Option String) :
    List DrugRecord :=
  match companyFilter with
  | none => data
  | some c => if c ≠ "" then data.filter (fun item => item.company == c) else data

/-- Building a JS `Set` by inserting values left to right: a value already
seen is skipped, a new value is appended (`seen` holds the accumulated
values in reverse). -/
def jsSetFold (seen : List String) : List String → List String
  | [] => seen.reverse
  | x :: xs => if x ∈ seen then jsSetFold seen xs else jsSetFold (x :: seen) xs

/-- First-occurrence deduplication by exact equality: the embedding of
`[...new Set(values)]` in `FileDatabase.distinct` (a `Set` keeps the first
occurrence of each value, in insertion order). -/
def jsSetDedup (l : List String) : List String := jsSetFold [] l

/-- `FileDatabase.distinct(field)` from `src/backend/utils/fileDatabase.js`:
map every item to the field's value and deduplicate with a `Set`. -/
def distinct (data : List DrugRecord) (field : DrugRecord → String) :
    List String :=
  jsSetDedup (data.map field)

/-- The observable state of a `FileDatabase`: the in-memory `data` array and
the JSON file contents last written by `saveData`. -/
structure FileDB where
  data : List DrugRecord
  fileContents : List DrugRecord
deriving DecidableEq

/-- `FileDatabase.saveData()`: write the in-memory array to the file. -/
def saveData (db : FileDB) : FileDB :=
  { db with fileContents := db.data }

/-- The value returned by `FileDatabase.deleteMany`. -/
structure DeleteResult where
  deletedCount : Nat
deriving DecidableEq

/-- `FileDatabase.deleteMany()` from `src/backend/utils/fileDatabase.js`:
`this.data = []; this.saveData(); return { deletedCount: this.data.length }`
— the count is read from `this.data` after it was cleared. -/
def deleteMany (db : FileDB) : FileDB × DeleteResult :=
  let db1 := { db with data := ([] : List DrugRecord) }
  let db2 := saveData db1
  (db2, { deletedCount := db2.data.length })

/-- The sortable field named by the `sortBy` query parameter (the route
reads `a[sortBy]`; the five record fields are the values used by the
application). -/
inductive SortField where
  | code
  | genericName
  | brandName
  | company
  | launchDate
deriving DecidableEq

/-- `a[sortBy]` for the generic (non-date) comparison branch: the raw field
value as a string (for `launchDate` this is the stored ISO string). -/
def fieldStr (d : DrugRecord) : SortField → String
  | .code => d.code
  | .genericName => d.genericName
  | .brandName => d.brandName
  | .company => d.company
  | .launchDate => d.launchDate.iso

/-- The comparator of `drugs.sort` in `src/backend/routes/drugsFile.js`,
expressed as "comparator(a, b) ≤ 0" (a may stay before b in the stable
sort):
for `sortBy === 'launchDate'` the comparator is `bDate - aDate` (desc) or
`aDate - bDate` (asc) on `new Date` values, so a stays before b iff
`bDate ≤ aDate` (desc) resp. `aDate ≤ bDate` (asc); otherwise it is
`bValue > aValue ? 1 : -1` (desc) or `aValue > bValue ? 1 : -1` (asc), so a
stays before b iff `¬(bValue > aValue)` resp. `¬(aValue > bValue)`. -/
def jsSortLe (sortBy : SortField) (sortOrder : String) (a b : DrugRecord) :
    Bool :=
  match sortBy with
  | .launchDate =>
    if sortOrder = "desc" then decide (b.launchDate.epoch ≤ a.launchDate.epoch)
    else decide (a.launchDate.epoch ≤ b.launchDate.epoch)
  | f =>
    if sortOrder = "desc" then !(jsStrLt (fieldStr a f) (fieldStr b f))
    else !(jsStrLt (fieldStr b f) (fieldStr a f))

/-- The sort relation ("a may stay before b") as a decidable relation. -/
def jsSortRel (sortBy : SortField) (sortOrder : String)
    (a b : DrugRecord) : Prop :=
  jsSortLe sortBy sortOrder a b = true

instance (sortBy : SortField) (sortOrder : String) :
    DecidableRel (jsSortRel sortBy sortOrder) :=
  fun a b => inferInstanceAs (Decidable (_ = true))

/-- Totality of the string "may stay before" relation `¬(v < u)`. -/
theorem strLe_total (u v : List Nat) :
    (!lexLtN u v) = true ∨ (!lexLtN v u) = true := by
  by_cases h : lexLtN u v = true
  · right
    cases hvu : lexLtN v u with
    | false => simp
    | true =>
      have := lexLtN_trans h hvu
      rw [lexLtN_irrefl] at this
      exact absurd this Bool.false_ne_true
  · left
    simp only [Bool.not_eq_true] at h
    simp [h]

/-- Transitivity of the string "may stay before" relation. -/
theorem strLe_trans {x y z : List Nat}
    (h1 : (!lexLtN x y) = true) (h2 : (!lexLtN y z) = true) :
    (!lexLtN x z) = true := by
  simp only [Bool.not_eq_true'] at h1 h2 ⊢
  exact lexLtN_le_trans h1 h2

instance (sortBy : SortField) (sortOrder : String) :
    IsTotal DrugRecord (jsSortRel sortBy sortOrder) := by
  constructor
  intro a b
  unfold jsSortRel jsSortLe jsStrLt
  cases sortBy <;> by_cases h : sortOrder = "desc" <;>
      simp only [h, if_true, if_false, reduceIte, decide_eq_true_eq] <;>
    first
      | omega
      | exact strLe_total _ _
      | exact (strLe_total _ _).symm

instance (sortBy : SortField) (sortOrder : String) :
    IsTrans DrugRecord (jsSortRel sortBy sortOrder) := by
  constructor
  intro a b c
  unfold jsSortRel jsSortLe jsStrLt
  cases sortBy <;> by_cases h : sortOrder = "desc" <;>
      simp only [h, if_true, if_false, reduceIte, decide_eq_true_eq] <;>
    first
      | omega
      | exact fun h1 h2 => strLe_trans h1 h2
      | exact fun h1 h2 => strLe_trans h2 h1

/-- The filter object built by `router.get('/')` in
`src/backend/routes/drugsFile.js`: `filter.company = company` exactly when
the query parameter is present, truthy (non-empty) and non-empty after
trimming. -/
def buildFilter (company : Option String) : Option String :=
  match company with
  | none => none
  | some c => if c ≠ "" ∧ jsTrim c ≠ "" then some c else none

/-- One element of the `drugs` array of the `GET /api/drugs` response: the
spread of the stored record plus the derived `id`, `displayName` and
`sequentialId`. -/
structure OutDrug where
  _id : String
  code : String
  genericName : String
  brandName : String
  company : String
  launchDate : DateStr
  id : String
  displayName : String
  sequentialId : Nat
deriving DecidableEq

/-- `{...drug, id: drug._id, displayName: `${genericName} (${brandName})`,
sequentialId: startIndex + index + 1}`. -/
def toOutDrug (d : DrugRecord) (seq : Nat) : OutDrug :=
  { _id := d._id, code := d.code, genericName := d.genericName,
    brandName := d.brandName, company := d.company,
    launchDate := d.launchDate, id := d._id,
    displayName := d.genericName ++ " (" ++ d.brandName ++ ")",
    sequentialId := seq }

/-- `paginatedDrugs.map((drug, index) => ...)`: the indexed map that
attaches `sequentialId = startIndex + index + 1` to each drug of the
page. -/
def addDisplayInfo (startIndex : Nat) : Nat → List DrugRecord → List OutDrug
  | _, [] => []
  | index, d :: ds =>
    toOutDrug d (startIndex + index + 1) :: addDisplayInfo startIndex (index + 1) ds

/-- The pagination envelope of the `GET /api/drugs` response. -/
structure Pagination where
  currentPage : Nat
  totalPages : Nat
  totalCount : Nat
  hasNextPage : Bool
  hasPrevPage : Bool
deriving DecidableEq

/-- The `GET /api/drugs` response body. -/
structure DrugsResponse where
  drugs : List OutDrug
  pagination : Pagination
deriving DecidableEq

/-- The body of `router.get('/')` in `src/backend/routes/drugsFile.js`
after the query parameters have been read (JS `slice(start, end)` is
`drop start` then `take (end - start)`; `Math.ceil(totalCount / limit)` is
`(totalCount + limit - 1) / limit` in natural-number arithmetic for
`limit ≥ 1`). -/
def listDrugs (data : List DrugRecord) (company : Option String)
    (page limit : Nat) (sortBy : SortField) (sortOrder : String) :
    DrugsResponse :=
  let drugs := find data (buildFilter company)
  let sorted := List.insertionSort (jsSortRel sortBy sortOrder) drugs
  let totalCount := sorted.length
  let totalPages := (totalCount + limit - 1) / limit
  let startIndex := (page - 1) * limit
  let endIndex := startIndex + limit
  let paginatedDrugs := (sorted.drop startIndex).take (endIndex - startIndex)
  { drugs := addDisplayInfo startIndex 0 paginatedDrugs,
    pagination :=
      { currentPage := page, totalPages := totalPages,
        totalCount := totalCount,
        hasNextPage := decide (endIndex < totalCount),
        hasPrevPage := decide (1 < page) } }

/-- The raw query string of `GET /api/drugs`: every parameter is optional;
the route's destructuring applies the defaults
`page=1, limit=50, sortBy='launchDate', sortOrder='desc'`. -/
structure RawQuery where
  company : Option String
  page : Option Nat
  limit : Option Nat
  sortBy : Option SortField
  sortOrder : Option String

/-- `router.get('/')` of `src/backend/routes/drugsFile.js` including the
default values of the destructuring
`{ company, page = 1, limit = 50, sortBy = 'launchDate',
sortOrder = 'desc' } = req.query`. -/
def handleGetDrugs (data : List DrugRecord) (q : RawQuery) : DrugsResponse :=
  listDrugs data q.company (q.page.getD 1) (q.limit.getD 50)
    (q.sortBy.getD .launchDate) (q.sortOrder.getD "desc")

/-- The comparator of `companies.sort` in
`src/backend/routes/companiesFile.js`:
`a.localeCompare(b, undefined, { sensitivity: 'base' })`, i.e.
case-insensitive collation. For the ASCII company names of this
application, base-sensitivity collation is lexicographic comparison of the
lower-cased character codes; a stays before b iff the comparison is ≤ 0,
i.e. iff ¬(b collates before a). -/
def lowerCode (n : Nat) : Nat := if 65 ≤ n ∧ n ≤ 90 then n + 32 else n

/-- The lower-cased character codes of a string (base-sensitivity collation
key). -/
def collKey (s : String) : List Nat := (codes s).map lowerCode

/-- The "a may stay before b" relation of the company sort (comparator
value ≤ 0). -/
def localeBaseLe (a b : String) : Prop :=
  (!lexLtN (collKey b) (collKey a)) = true

instance : DecidableRel localeBaseLe :=
  fun a b => inferInstanceAs (Decidable (_ = true))

instance : IsTotal String localeBaseLe := by
  constructor
  intro a b
  exact (strLe_total _ _).symm

instance : IsTrans String localeBaseLe := by
  constructor
  intro a b c h1 h2
  exact strLe_trans h2 h1

/-- `router.get('/')` of `src/backend/routes/companiesFile.js`:
`fileDB.distinct('company')` then a stable sort with the base-sensitivity
`localeCompare` comparator. -/
def listCompanies (data : List DrugRecord) : List String :=
  List.insertionSort localeBaseLe (distinct data (fun d => d.company))

/-- The request body of `POST /api/drugs`:
`{ code, genericName, brandName, company, launchDate }`. The route passes
`new Date(launchDate)` to the model; `none` stands for a missing or
unparseable launch date (an Invalid Date). -/
structure NewDrug where
  code : String
  genericName : String
  brandName : String
  company : String
  launchDate : Option DateStr
deriving DecidableEq

/-- The ways `drug.save()` can fail for the mongoose Drug schema (the
schema at the tail of `src/backend/serverFile.js`): a required-path
validation error, or the MongoDB duplicate-key error — the one whose
`error.code` is `11000` — from the unique index on `code`. -/
inductive SaveError where
  | validation
  | dupKey
deriving DecidableEq

/-- `drug.save()` for the mongoose Drug schema of
`src/backend/serverFile.js`: every path is `required: true` (`code`,
`genericName`, `brandName`, `company` as String — mongoose's required
check rejects a missing or empty string — and `launchDate` as Date,
rejecting a missing/invalid date), and `code` is `unique: true`.
Validation runs before the write, so an invalid body fails with a
validation error even when its code is a duplicate; a valid body whose
code is already stored fails with the duplicate-key error; otherwise the
record (with the store-generated object id) is appended. -/
def saveDrug (store : List DrugRecord) (oid : String) (body : NewDrug) :
    Except SaveError (List DrugRecord) :=
  match body.launchDate with
  | none => .error .validation
  | some d =>
    if body.code = "" ∨ body.genericName = "" ∨ body.brandName = ""
        ∨ body.company = "" then
      .error .validation
    else if store.any (fun r => r.code == body.code) then
      .error .dupKey
    else
      .ok (store ++ [{ _id := oid, code := body.code,
                       genericName := body.genericName,
                       brandName := body.brandName, company := body.company,
                       launchDate := d }])

/-- The observable outcome of `POST /api/drugs`: HTTP status, the `error`
message if any, and the `id` field of the created object on success. -/
structure PostOutcome where
  status : Nat
  errorMsg : Option String
  createdId : Option String
deriving DecidableEq

/-- `router.post('/')` of the mongoose drugs router: build the drug from
the body, `save` it; 201 with the created object (including `id`) on
success, 400 `{error: 'Drug code already exists'}` when save fails with
the duplicate-key error (`error.code === 11000`), 500
`{error: 'Failed to create drug'}` on any other error (in particular a
required-path validation error). The store is returned unchanged when
save fails. -/
def postDrug (store : List DrugRecord) (oid : String) (body : NewDrug) :
    PostOutcome × List DrugRecord :=
  match saveDrug store oid body with
  | .ok store2 =>
    ({ status := 201, errorMsg := none, createdId := some oid }, store2)
  | .error .dupKey =>
    ({ status := 400, errorMsg := some "Drug code already exists",
       createdId := none }, store)
  | .error .validation =>
    ({ status := 500, errorMsg := some "Failed to create drug",
       createdId := none }, store)

/-- The parameters the presentation layer passes to
`drugService.getDrugs`. -/
structure GetDrugsParams where
  company : Option String
  page : Nat
  limit : Nat
  sortBy : SortField
  sortOrder : String
deriving DecidableEq

/-- The pagination block of the table configuration fetched from
`GET /api/config`, as far as the App's requests depend on it
(`defaultPageSize`; the page-size options and column descriptors are
display-only and omitted). -/
structure TableConfigPg where
  defaultPageSize : Nat
deriving DecidableEq

/-- The table configuration held by the App (`tableConfig` state,
`null` until the initial load resolves). -/
structure TableConfig where
  pagination : TableConfigPg
deriving DecidableEq

/-- The App component's state hooks that determine its drug-list requests
(the component at the tail of
`src/frontend/src/components/__tests__/DrugTable.test.tsx`):
`selectedCompany` (`useState('')`), `currentPage` (`useState(1)`, its
setter spelled `setCurrenPage` in the source), and `tableConfig`
(`useState<TableConfig|null>(null)`). The display-only hooks (drugs,
companies, loading, error, totals) are omitted. -/
structure AppState where
  selectedCompany : String
  currentPage : Nat
  tableConfig : Option TableConfig
deriving DecidableEq

/-- The `drugService.getDrugs` call of the App's `loadDrugs`:
`{ company: selectedCompany || undefined, page: currentPage,
limit: tableConfig?.pagination.defaultPageSize || 50,
sortBy: 'launchDate', sortOrder: 'desc' }` — the sort parameters are the
hard-coded literals, the limit falls back to 50 when the config is absent
(or its falsy `defaultPageSize` 0). -/
def loadDrugsParams (s : AppState) : GetDrugsParams :=
  { company := if s.selectedCompany = "" then none else some s.selectedCompany,
    page := s.currentPage,
    limit :=
      match s.tableConfig with
      | none => 50
      | some cfg =>
        if cfg.pagination.defaultPageSize = 0 then 50
        else cfg.pagination.defaultPageSize,
    sortBy := .launchDate,
    sortOrder := "desc" }

/-- `handleCompanyFilter` of the App component:
`setSelectedCompany(company); setCurrenPage(1)` ("Reset to first page when
filtering"). It is passed to `CompanyFilter` as `onFilterChange`. -/
def handleCompanyFilter (s : AppState) (company : String) : AppState :=
  { s with selectedCompany := company, currentPage := 1 }

/-- The in-row company click: `DrugTable`'s `handleCompanyClick` forwards
the clicked company to its `onCompanyClick` prop, which the App wires to
the same handler (`onCompanyClick={handleCompanyFilter}`). -/
def handleCompanyClick (s : AppState) (company : String) : AppState :=
  handleCompanyFilter s company

theorem addDisplayInfo_length (s : Nat) :
    ∀ (i : Nat) (l : List DrugRecord),
      (addDisplayInfo s i l).length = l.length := by
  intro i l
  induction l generalizing i with
  | nil => rfl
  | cons d ds ih => simp [addDisplayInfo, ih]

theorem addDisplayInfo_map {α : Type} (f : OutDrug → α) (g : DrugRecord → α)
    (hfg : ∀ d n, f (toOutDrug d n) = g d) (s : Nat) :
    ∀ (i : Nat) (l : List DrugRecord),
      (addDisplayInfo s i l).map f = l.map g := by
  intro i l
  induction l generalizing i with
  | nil => rfl
  | cons d ds ih => simp [addDisplayInfo, hfg, ih]

theorem addDisplayInfo_map_seq (s : Nat) :
    ∀ (i : Nat) (l : List DrugRecord),
      (addDisplayInfo s i l).map (fun o => o.sequentialId)
        = List.range' (s + i + 1) l.length := by
  intro i l
  induction l generalizing i with
  | nil => rfl
  | cons d ds ih =>
    show (s + i + 1) :: (addDisplayInfo s (i + 1) ds).map (fun o => o.sequentialId)
        = (s + i + 1) :: List.range' (s + i + 1 + 1) ds.length
    rw [ih (i + 1)]
    have : s + (i + 1) + 1 = s + i + 1 + 1 := by omega
    rw [this]

theorem addDisplayInfo_mem {o : OutDrug} (s : Nat) :
    ∀ {i : Nat} {l : List DrugRecord},
      o ∈ addDisplayInfo s i l → ∃ d ∈ l, ∃ n, o = toOutDrug d n := by
  intro i l
  induction l generalizing i with
  | nil => intro h; simp [addDisplayInfo] at h
  | cons d ds ih =>
    intro h
    rcases List.mem_cons.mp h with h | h
    · exact ⟨d, List.mem_cons_self _ _, _, h⟩
    · rcases ih h with ⟨d2, hd2, n, hn⟩
      exact ⟨d2, List.mem_cons_of_mem _ hd2, n, hn⟩

theorem jsSetFold_nodup :
    ∀ (l seen : List String), seen.Nodup → (jsSetFold seen l).Nodup := by
  intro l
  induction l with
  | nil =>
    intro seen hs
    exact List.nodup_reverse.mpr hs
  | cons x xs ih =>
    intro seen hs
    by_cases hx : x ∈ seen
    · simpa [jsSetFold, hx] using ih seen hs
    · simpa [jsSetFold, hx] using ih (x :: seen) (List.nodup_cons.mpr ⟨hx, hs⟩)

theorem jsSetDedup_nodup (l : List String) : (jsSetDedup l).Nodup :=
  jsSetFold_nodup l [] List.nodup_nil

/-- `P < ⌈T / S⌉ ↔ P·S < T` for `S ≥ 1`: the arithmetic heart of the
`hasNextPage` invariant. -/
theorem lt_ceilDiv_iff {T S P : Nat} (hS : 1 ≤ S) :
    P < T ⌈/⌉ S ↔ P * S < T := by
  have h := ceilDiv_le_iff_le_mul (α := ℕ) (a := S) (b := T) (c := P) hS
  have hmul : S * P = P * S := Nat.mul_comm S P
  constructor
  · intro hlt
    by_contra hc
    have h2 : T ⌈/⌉ S ≤ P := h.mpr (by omega)
    omega
  · intro hlt
    by_contra hc
    have h1 : T ⌈/⌉ S ≤ P := by omega
    have h2 : T ≤ S * P := h.mp h1
    omega

/-- Sample record: launch instant 2020-01-01T15:00Z, stored with a +09:00
offset so that its ISO string sorts lexically *after* `drugB`'s while its
instant is *earlier*. -/
def drugA : DrugRecord :=
  { _id := "A", code := "0006-0568", genericName := "vorinostat",
    brandName := "ZOLINZA", company := "Merck Sharp & Dohme Corp.",
    launchDate := { iso := "2020-01-02T00:00:00+09:00", epoch := 1577890800000 } }

/-- Sample record: launch instant 2020-01-01T20:00Z. -/
def drugB : DrugRecord :=
  { _id := "B", code := "68828-192", genericName := "Avobenzone",
    brandName := "CC Cream", company := "Jafra cosmetics International",
    launchDate := { iso := "2020-01-01T20:00:00Z", epoch := 1577908800000 } }

/-- Sample record stored for the company "Pfizer". -/
def drugP : DrugRecord :=
  { _id := "P1", code := "P-001", genericName := "atorvastatin",
    brandName := "Lipitor", company := "Pfizer",
    launchDate := { iso := "2019-05-01T00:00:00Z", epoch := 1556668800000 } }

/-- A three-record sample store. -/
def sampleData : List DrugRecord := [drugA, drugB, drugP]

/-- A one-record store whose only company is "Pfizer". -/
def pfizerData : List DrugRecord := [drugP]

/-- The two records whose lexical ISO order and chronological order
disagree. -/
def dateContrastData : List DrugRecord := [drugA, drugB]

/-- A store holding the companies "Cipla", "abc" and "cipla". -/
def ciplaData : List DrugRecord :=
  [ { _id := "C1", code := "C-1", genericName := "g1", brandName := "b1",
      company := "Cipla",
      launchDate := { iso := "2018-01-01T00:00:00Z", epoch := 1514764800000 } },
    { _id := "C2", code := "C-2", genericName := "g2", brandName := "b2",
      company := "abc",
      launchDate := { iso := "2018-02-01T00:00:00Z", epoch := 1517443200000 } },
    { _id := "C3", code := "C-3", genericName := "g3", brandName := "b3",
      company := "cipla",
      launchDate := { iso := "2018-03-01T00:00:00Z", epoch := 1519862400000 } } ]

/-- C10: `FileDatabase.deleteMany` removes every stored record and persists
the empty store, yet always reports `deletedCount = 0`, because the count
is read from the data array after it has been cleared. -/
theorem deleteMany_clears_store_returns_zero (db : FileDB) :
    (deleteMany db).1.data = []
    ∧ (deleteMany db).1.fileContents = []
    ∧ (deleteMany db).2.deletedCount = 0 :=
  ⟨rfl, rfl, rfl⟩

/-- C8: every company-filter change — through the dropdown
(`handleCompanyFilter`, the `onFilterChange` of `CompanyFilter`) or by
clicking a company value in a rendered row (`handleCompanyClick`, wired to
the same handler) — resets the page of the next drug-list request to 1
and leaves its page size and both sort parameters exactly those of the
request the previous state would have issued. -/
theorem filter_change_resets_page_to_1 (s : AppState) (c : String) :
    (loadDrugsParams (handleCompanyFilter s c)).page = 1
    ∧ (loadDrugsParams (handleCompanyFilter s c)).limit
        = (loadDrugsParams s).limit
    ∧ (loadDrugsParams (handleCompanyFilter s c)).sortBy
        = (loadDrugsParams s).sortBy
    ∧ (loadDrugsParams (handleCompanyFilter s c)).sortOrder
        = (loadDrugsParams s).sortOrder
    ∧ (loadDrugsParams (handleCompanyClick s c)).page = 1
    ∧ (loadDrugsParams (handleCompanyClick s c)).limit
        = (loadDrugsParams s).limit
    ∧ (loadDrugsParams (handleCompanyClick s c)).sortBy
        = (loadDrugsParams s).sortBy
    ∧ (loadDrugsParams (handleCompanyClick s c)).sortOrder
        = (loadDrugsParams s).sortOrder :=
  ⟨rfl, rfl, rfl, rfl, rfl, rfl, rfl, rfl⟩

/-- C6: for a body that passes the schema's required-path validation,
`POST /api/drugs` with a code that is already stored responds 400 with the
duplicate-code error and leaves the store (and so its record count)
unchanged; a fresh code responds 201 with the created object including
its id, appending exactly that record (the schema marks every field
`required: true`, so a body failing validation is rejected with 500
before either branch applies). -/
theorem post_duplicate_code_400_store_unchanged
    (store : List DrugRecord) (oid : String) (body : NewDrug) (d : DateStr)
    (hdate : body.launchDate = some d)
    (hvalid : ¬ (body.code = "" ∨ body.genericName = ""
      ∨ body.brandName = "" ∨ body.company = "")) :
    (store.any (fun r => r.code == body.code) = true →
      (postDrug store oid body).1.status = 400
      ∧ (postDrug store oid body).1.errorMsg = some "Drug code already exists"
      ∧ (postDrug store oid body).2 = store
      ∧ (postDrug store oid body).2.length = store.length)
    ∧ (store.any (fun r => r.code == body.code) = false →
      (postDrug store oid body).1.status = 201
      ∧ (postDrug store oid body).1.createdId = some oid
      ∧ (postDrug store oid body).2
          = store ++ [{ _id := oid, code := body.code,
                        genericName := body.genericName,
                        brandName := body.brandName, company := body.company,
                        launchDate := d }]) := by
  constructor
  · intro h
    simp [postDrug, saveDrug, hdate, hvalid, h]
  · intro h
    simp [postDrug, saveDrug, hdate, hvalid, h]

/-- A drug body whose code duplicates `drugP`'s stored code. -/
def dupBody : NewDrug :=
  { code := "P-001", genericName := "atorvastatin", brandName := "Lipitor",
    company := "Pfizer",
    launchDate := some { iso := "2019-05-01T00:00:00Z", epoch := 1556668800000 } }

/-- A drug body with a fresh code. -/
def freshBody : NewDrug :=
  { code := "X-100", genericName := "ibuprofen", brandName := "Advil",
    company := "Haleon",
    launchDate := some { iso := "2021-01-01T00:00:00Z", epoch := 1609459200000 } }

theorem post_duplicate_code_400_store_unchanged_witness :
    (pfizerData.any (fun r => r.code == dupBody.code) = true
      ∧ (postDrug pfizerData "oid1" dupBody).1.status = 400
      ∧ (postDrug pfizerData "oid1" dupBody).1.errorMsg
          = some "Drug code already exists"
      ∧ (postDrug pfizerData "oid1" dupBody).2 = pfizerData
      ∧ (postDrug pfizerData "oid1" dupBody).2.length = pfizerData.length)
    ∧ (pfizerData.any (fun r => r.code == freshBody.code) = false
      ∧ (postDrug pfizerData "oid2" freshBody).1.status = 201
      ∧ (postDrug pfizerData "oid2" freshBody).1.createdId = some "oid2") :=
  ⟨⟨by decide,
    (post_duplicate_code_400_store_unchanged pfizerData "oid1" dupBody _
      rfl (by decide)).1 (by decide)⟩,
   ⟨by decide,
    ((post_duplicate_code_400_store_unchanged pfizerData "oid2" freshBody _
      rfl (by decide)).2 (by decide)).1,
    ((post_duplicate_code_400_store_unchanged pfizerData "oid2" freshBody _
      rfl (by decide)).2 (by decide)).2.1⟩⟩

/-- C1: for every page `P ≥ 1` and page size `S ≥ 1`, the drugs returned by
`GET /api/drugs` carry sequential ids `(P−1)·S + 1, (P−1)·S + 2, …,
(P−1)·S + count_on_page` — strictly increasing by 1 in response order —
and the i-th returned drug is the record at rank `(P−1)·S + i` of the full
filtered and sorted collection. -/
theorem sequentialIds_enumerate_page_ranks
    (data : List DrugRecord) (company : Option String) (P S : Nat)
    (sortBy : SortField) (sortOrder : String) (hP : 1 ≤ P) (hS : 1 ≤ S) :
    (listDrugs data company P S sortBy sortOrder).drugs.map
        (fun o => o.sequentialId)
      = List.range' ((P - 1) * S + 1)
          (listDrugs data company P S sortBy sortOrder).drugs.length
    ∧ (listDrugs data company P S sortBy sortOrder).drugs.map (fun o => o._id)
      = (((List.insertionSort (jsSortRel sortBy sortOrder)
            (find data (buildFilter company))).drop ((P - 1) * S)).take S).map
          (fun d => d._id) := by
  simp only [listDrugs]
  constructor
  · rw [addDisplayInfo_map_seq, addDisplayInfo_length]
  · rw [addDisplayInfo_map (fun o => o._id) (fun d => d._id) (fun _ _ => rfl)]
    have h2 : (P - 1) * S + S - (P - 1) * S = S := by omega
    rw [h2]

theorem sequentialIds_enumerate_page_ranks_witness :
    ((1 : Nat) ≤ 2 ∧ (1 : Nat) ≤ 2)
    ∧ ((listDrugs sampleData none 2 2 .launchDate "desc").drugs.map
          (fun o => o.sequentialId)
        = List.range' ((2 - 1) * 2 + 1)
            (listDrugs sampleData none 2 2 .launchDate "desc").drugs.length
      ∧ (listDrugs sampleData none 2 2 .launchDate "desc").drugs.map
          (fun o => o._id)
        = (((List.insertionSort (jsSortRel .launchDate "desc")
              (find sampleData (buildFilter none))).drop ((2 - 1) * 2)).take 2).map
            (fun d => d._id)) :=
  ⟨⟨by decide, by decide⟩,
   sequentialIds_enumerate_page_ranks sampleData none 2 2 .launchDate "desc"
     (by decide) (by decide)⟩

/-- C2: the pagination envelope of every `GET /api/drugs` response
satisfies `totalPages = ⌈totalCount / pageSize⌉`,
`hasNextPage ↔ currentPage < totalPages` and
`hasPrevPage ↔ currentPage > 1`, for every filter, page ≥ 1 and
page size ≥ 1. -/
theorem pagination_envelope_consistent
    (data : List DrugRecord) (company : Option String) (P S : Nat)
    (sortBy : SortField) (sortOrder : String) (hP : 1 ≤ P) (hS : 1 ≤ S) :
    (listDrugs data company P S sortBy sortOrder).pagination.totalPages
      = (listDrugs data company P S sortBy sortOrder).pagination.totalCount ⌈/⌉ S
    ∧ ((listDrugs data company P S sortBy sortOrder).pagination.hasNextPage = true
        ↔ (listDrugs data company P S sortBy sortOrder).pagination.currentPage
            < (listDrugs data company P S sortBy sortOrder).pagination.totalPages)
    ∧ ((listDrugs data company P S sortBy sortOrder).pagination.hasPrevPage = true
        ↔ 1 < (listDrugs data company P S sortBy sortOrder).pagination.currentPage) := by
  simp only [listDrugs]
  refine ⟨?_, ?_, ?_⟩
  · rw [Nat.ceilDiv_eq_add_pred_div]
  · rw [decide_eq_true_iff]
    have hsplit : (P - 1) * S + S = P * S := by
      calc (P - 1) * S + S = ((P - 1) + 1) * S := by rw [Nat.succ_mul]
        _ = P * S := by rw [Nat.sub_add_cancel hP]
    rw [hsplit, ← Nat.ceilDiv_eq_add_pred_div]
    exact (lt_ceilDiv_iff hS).symm
  · rw [decide_eq_true_iff]

theorem pagination_envelope_consistent_witness :
    ((1 : Nat) ≤ 2 ∧ (1 : Nat) ≤ 2)
    ∧ ((listDrugs sampleData none 2 2 .launchDate "desc").pagination.totalPages
        = (listDrugs sampleData none 2 2 .launchDate "desc").pagination.totalCount ⌈/⌉ 2
      ∧ ((listDrugs sampleData none 2 2 .launchDate "desc").pagination.hasNextPage = true
          ↔ (listDrugs sampleData none 2 2 .launchDate "desc").pagination.currentPage
              < (listDrugs sampleData none 2 2 .launchDate "desc").pagination.totalPages)
      ∧ ((listDrugs sampleData none 2 2 .launchDate "desc").pagination.hasPrevPage = true
          ↔ 1 < (listDrugs sampleData none 2 2 .launchDate "desc").pagination.currentPage)) :=
  ⟨⟨by decide, by decide⟩,
   pagination_envelope_consistent sampleData none 2 2 .launchDate "desc"
     (by decide) (by decide)⟩

/-- C5: when `(P−1)·S` is at least the filtered collection's size, the
response has an empty record list while the envelope still reports the
true `totalCount` and `totalPages` of the full filtered collection and the
unclamped `currentPage = P`. -/
theorem page_past_end_empty_with_true_totals
    (data : List DrugRecord) (company : Option String) (P S : Nat)
    (sortBy : SortField) (sortOrder : String) (hP : 1 ≤ P) (hS : 1 ≤ S)
    (hpast : (find data (buildFilter company)).length ≤ (P - 1) * S) :
    (listDrugs data company P S sortBy sortOrder).drugs = []
    ∧ (listDrugs data company P S sortBy sortOrder).pagination.totalCount
        = (find data (buildFilter company)).length
    ∧ (listDrugs data company P S sortBy sortOrder).pagination.totalPages
        = (find data (buildFilter company)).length ⌈/⌉ S
    ∧ (listDrugs data company P S sortBy sortOrder).pagination.currentPage = P := by
  have hlen : (List.insertionSort (jsSortRel sortBy sortOrder)
      (find data (buildFilter company))).length
      = (find data (buildFilter company)).length :=
    (List.perm_insertionSort _ _).length_eq
  simp only [listDrugs]
  refine ⟨?_, ?_, ?_, ?_⟩
  · rw [List.drop_eq_nil_of_le (by rw [hlen]; exact hpast)]
    simp [addDisplayInfo]
  · exact hlen
  · rw [Nat.ceilDiv_eq_add_pred_div, hlen]
  · trivial

theorem page_past_end_empty_with_true_totals_witness :
    ((1 : Nat) ≤ 3 ∧ (1 : Nat) ≤ 2
      ∧ (find sampleData (buildFilter none)).length ≤ (3 - 1) * 2)
    ∧ ((listDrugs sampleData none 3 2 .launchDate "desc").drugs = []
      ∧ (listDrugs sampleData none 3 2 .launchDate "desc").pagination.totalCount
          = (find sampleData (buildFilter none)).length
      ∧ (listDrugs sampleData none 3 2 .launchDate "desc").pagination.totalPages
          = (find sampleData (buildFilter none)).length ⌈/⌉ 2
      ∧ (listDrugs sampleData none 3 2 .launchDate "desc").pagination.currentPage
          = 3) :=
  ⟨⟨by decide, by decide, by decide⟩,
   page_past_end_empty_with_true_totals sampleData none 3 2 .launchDate "desc"
     (by decide) (by decide) (by decide)⟩

/-- The filtered collection the route works on, when the company parameter
is non-empty after trimming, is exactly the records whose company equals
the raw parameter value. -/
theorem find_buildFilter_of_nonblank {c : String} (data : List DrugRecord)
    (hne : jsTrim c ≠ "") :
    find data (buildFilter (some c))
      = data.filter (fun d => d.company == c) := by
  have hc : c ≠ "" := by
    intro hceq
    subst hceq
    exact hne (by decide)
  simp only [buildFilter, find, if_pos (And.intro hc hne), if_pos hc]

/-- C3: `GET /api/drugs` applies the company filter iff the provided
company string is non-empty after trimming — otherwise every record is a
match (`totalCount = data.length`) — and with a non-empty filter every
returned record's company equals the filter value by exact, case-sensitive
string equality. -/
theorem company_filter_iff_nonblank_exact_match
    (data : List DrugRecord) (c : String) (P S : Nat)
    (sortBy : SortField) (sortOrder : String) :
    (jsTrim c = "" →
      (listDrugs data (some c) P S sortBy sortOrder).pagination.totalCount
        = data.length)
    ∧ (jsTrim c ≠ "" →
      (listDrugs data (some c) P S sortBy sortOrder).drugs.all
          (fun o => o.company == c) = true) := by
  constructor
  · intro hblank
    have hfilter : buildFilter (some c) = none := by
      simp only [buildFilter]
      rw [if_neg]
      intro hand
      exact hand.2 hblank
    simp only [listDrugs, hfilter, find]
    exact (List.perm_insertionSort _ _).length_eq
  · intro hne
    rw [List.all_eq_true]
    intro o ho
    have ho2 : o ∈ (listDrugs data (some c) P S sortBy sortOrder).drugs := ho
    simp only [listDrugs] at ho2
    rcases addDisplayInfo_mem _ ho2 with ⟨d, hd, n, hdn⟩
    have hd2 : d ∈ List.insertionSort (jsSortRel sortBy sortOrder)
        (find data (buildFilter (some c))) :=
      ((List.take_sublist _ _).trans (List.drop_sublist _ _)).subset hd
    have hd3 : d ∈ find data (buildFilter (some c)) :=
      (List.perm_insertionSort _ _).mem_iff.mp hd2
    rw [find_buildFilter_of_nonblank data hne] at hd3
    have := List.of_mem_filter hd3
    rw [hdn]
    exact this

theorem company_filter_iff_nonblank_exact_match_witness :
    (jsTrim " " = ""
      ∧ (listDrugs pfizerData (some " ") 1 50 .launchDate "desc").pagination.totalCount
          = pfizerData.length)
    ∧ (jsTrim "Pfizer" ≠ ""
      ∧ (listDrugs pfizerData (some "Pfizer") 1 50 .launchDate "desc").drugs.all
          (fun o => o.company == "Pfizer") = true) :=
  ⟨⟨by decide,
    (company_filter_iff_nonblank_exact_match pfizerData " " 1 50 .launchDate
      "desc").1 (by decide)⟩,
   ⟨by decide,
    (company_filter_iff_nonblank_exact_match pfizerData "Pfizer" 1 50 .launchDate
      "desc").2 (by decide)⟩⟩

/-- C9: when the company parameter is non-empty after trimming, matching
uses the raw, untrimmed parameter value (trimming only feeds the emptiness
test), so `" Pfizer "` matches no record stored with company `"Pfizer"`:
the filtered total is always the count of records whose company equals the
raw value, and on a store holding exactly one "Pfizer" record the padded
filter returns no records while the exact filter returns one. -/
theorem company_filter_matches_raw_untrimmed :
    (∀ (data : List DrugRecord) (c : String) (P S : Nat)
        (sortBy : SortField) (sortOrder : String), jsTrim c ≠ "" →
      (listDrugs data (some c) P S sortBy sortOrder).pagination.totalCount
        = (data.filter (fun d => d.company == c)).length)
    ∧ (listDrugs pfizerData (some " Pfizer ") 1 50 .launchDate "desc").drugs = []
    ∧ (listDrugs pfizerData (some " Pfizer ") 1 50 .launchDate
        "desc").pagination.totalCount = 0
    ∧ (listDrugs pfizerData (some "Pfizer") 1 50 .launchDate
        "desc").pagination.totalCount = 1 := by
  refine ⟨?_, by decide, by decide, by decide⟩
  intro data c P S sortBy sortOrder hne
  simp only [listDrugs]
  rw [find_buildFilter_of_nonblank data hne]
  exact (List.perm_insertionSort _ _).length_eq

theorem company_filter_matches_raw_untrimmed_witness :
    jsTrim " Pfizer " ≠ ""
    ∧ (listDrugs pfizerData (some " Pfizer ") 1 50 .launchDate
        "desc").pagination.totalCount
      = (pfizerData.filter (fun d => d.company == " Pfizer ")).length :=
  ⟨by decide,
   company_filter_matches_raw_untrimmed.1 pfizerData " Pfizer " 1 50 .launchDate
     "desc" (by decide)⟩

/-- C7: `GET /api/companies` returns the distinct company names with no
duplicate strings (deduplicated by exact string equality) and sorted
case-insensitively ascending; on a store holding "Cipla", "abc" and
"cipla" the result is `["abc", "Cipla", "cipla"]` — the two case-variants
adjacent. -/
theorem companies_distinct_case_insensitive_sorted :
    (∀ data : List DrugRecord,
      (listCompanies data).Nodup
      ∧ List.Pairwise localeBaseLe (listCompanies data))
    ∧ listCompanies ciplaData = ["abc", "Cipla", "cipla"] := by
  refine ⟨?_, by decide⟩
  intro data
  constructor
  · exact ((List.perm_insertionSort localeBaseLe _).nodup_iff).mpr
      (jsSetDedup_nodup _)
  · exact List.sorted_insertionSort localeBaseLe _

/-- The pairwise launch-date ordering obtained from the route's sort, for
any comparison `R` implied by the comparator relation. -/
theorem listDrugs_pairwise_epoch (data : List DrugRecord)
    (company : Option String) (page limit : Nat)
    (R : DateStr → DateStr → Prop) (so : String)
    (hR : ∀ a b : DrugRecord, jsSortRel .launchDate so a b →
      R a.launchDate b.launchDate) :
    List.Pairwise (fun a b : OutDrug => R a.launchDate b.launchDate)
      (listDrugs data company page limit .launchDate so).drugs := by
  have hs := List.sorted_insertionSort (jsSortRel .launchDate so)
      (find data (buildFilter company))
  have hp : List.Pairwise
      (fun a b : DrugRecord => R a.launchDate b.launchDate)
      (List.insertionSort (jsSortRel .launchDate so)
        (find data (buildFilter company))) :=
    hs.imp (fun hab => hR _ _ hab)
  have hp2 := hp.sublist
    ((List.take_sublist ((page - 1) * limit + limit - (page - 1) * limit) _).trans
      (List.drop_sublist ((page - 1) * limit) _))
  have h3 : List.Pairwise R
      ((((List.insertionSort (jsSortRel .launchDate so)
          (find data (buildFilter company))).drop ((page - 1) * limit)).take
            ((page - 1) * limit + limit - (page - 1) * limit)).map
        (fun d => d.launchDate)) :=
    List.pairwise_map.mpr hp2
  rw [← addDisplayInfo_map (fun o => o.launchDate) (fun d => d.launchDate)
      (fun _ _ => rfl) ((page - 1) * limit) 0] at h3
  have h4 := List.pairwise_map.mp h3
  simp only [listDrugs]
  exact h4

/-- Following the claim's wording, for contrast with the code: descending
*lexical string* comparison of the stored launch-date ISO strings (what
the generic, non-date comparator branch does for a string-valued field). -/
def lexIsoDesc (a b : DrugRecord) : Prop :=
  (!jsStrLt a.launchDate.iso b.launchDate.iso) = true

instance : DecidableRel lexIsoDesc :=
  fun a b => inferInstanceAs (Decidable (_ = true))

/-- C4: with no sort parameters supplied, `GET /api/drugs` returns records
sorted by launch date descending, and the `launchDate` sort compares
instants (epoch values of `new Date`), not lexical strings, in both
directions: on a store where the chronological and the lexical order of
the stored ISO strings disagree, the route's output follows the
chronological order while lexical sorting would give the opposite
order. -/
theorem default_sort_launchDate_desc_instant_semantics :
    (∀ data : List DrugRecord,
      List.Pairwise
        (fun a b : OutDrug => b.launchDate.epoch ≤ a.launchDate.epoch)
        (handleGetDrugs data
          { company := none, page := none, limit := none, sortBy := none,
            sortOrder := none }).drugs)
    ∧ (∀ (data : List DrugRecord) (company : Option String) (page limit : Nat),
      List.Pairwise
        (fun a b : OutDrug => b.launchDate.epoch ≤ a.launchDate.epoch)
        (listDrugs data company page limit .launchDate "desc").drugs)
    ∧ (∀ (data : List DrugRecord) (company : Option String) (page limit : Nat),
      List.Pairwise
        (fun a b : OutDrug => a.launchDate.epoch ≤ b.launchDate.epoch)
        (listDrugs data company page limit .launchDate "asc").drugs)
    ∧ (listDrugs dateContrastData none 1 50 .launchDate "desc").drugs.map
        (fun o => o._id) = ["B", "A"]
    ∧ (List.insertionSort lexIsoDesc dateContrastData).map (fun d => d._id)
        = ["A", "B"] := by
  have hdesc : ∀ a b : DrugRecord, jsSortRel .launchDate "desc" a b →
      b.launchDate.epoch ≤ a.launchDate.epoch := by
    intro a b hab
    unfold jsSortRel jsSortLe at hab
    rw [if_pos rfl] at hab
    exact of_decide_eq_true hab
  have hasc : ∀ a b : DrugRecord, jsSortRel .launchDate "asc" a b →
      a.launchDate.epoch ≤ b.launchDate.epoch := by
    intro a b hab
    unfold jsSortRel jsSortLe at hab
    rw [if_neg (by decide : ¬ ("asc" = "desc"))] at hab
    exact of_decide_eq_true hab
  refine ⟨?_, ?_, ?_, by decide, by decide⟩
  · intro data
    exact listDrugs_pairwise_epoch data none 1 50
      (fun u v => v.epoch ≤ u.epoch) "desc" hdesc
  · intro data company page limit
    exact listDrugs_pairwise_epoch data company page limit
      (fun u v => v.epoch ≤ u.epoch) "desc" hdesc
  · intro data company page limit
    exact listDrugs_pairwise_epoch data company page limit
      (fun u v => u.epoch ≤ v.epoch) "asc" hasc

end DrugApp
